import Mathlib

/-!
Verification of `src/core/hllset_wrapper.py` (HllSet wrapper with BSS τ/ρ
metrics).  The wrapper delegates sketch storage, insertion, estimation and
register-wise algebra to the Julia library `HllSets.jl`, which is not part of
this repository's sources; those delegated operations are modelled here from
the specification (each such definition is marked `Modelled from the spec:`).
The wrapper's own logic (`_calculate_bss_metrics`, `union`, `intersection`,
`difference`, `complement`, `add`, `add_batch`, `__eq__`, `from_dict`,
`from_julia`, `__init__`) is translated directly from the Python source.
Python floats are embedded as rationals; Python exceptions as `Except`.
-/

set_option autoImplicit false

deriving instance DecidableEq for Except

/-- Errors surfacing from the wrapper or from the modelled Julia core.
`configError` is raised at construction for an unsupported precision,
`configMismatch` by any binary operator on sketches of differing precision,
`valueError` is the Python `ValueError` raised by `from_dict` on empty input,
and `invalidAddress` is a store-model artifact for a method call on a
nonexistent object (unreachable for valid addresses). -/
inductive PyErr where
  | configError
  | configMismatch
  | valueError
  | invalidAddress
  deriving DecidableEq

/-- Modelled from the spec: the Julia `HllSet` register array (`HllSets.jl` is
not under `src/`).  A sketch holds a precision `P` and `M = 2^P` registers,
each a vector of boolean flags indexed by rank position (rank range `0..63`
for a 64-bit hash). -/
structure JlHll where
  P : Nat
  regs : List (List Bool)
  deriving DecidableEq

/-- Modelled from the spec: serialization of an element to bytes for hashing
(elements are embedded as strings). -/
def serializeElem (e : String) : List Nat :=
  e.toList.map Char.toNat

/-- Modelled from the spec: a single fixed, high-quality, non-cryptographic
64-bit mixing hash (FNV-1a), reduced modulo `2^64`. -/
def fnv64 (bytes : List Nat) : Nat :=
  bytes.foldl (fun h b => ((h ^^^ b) * 1099511628211) % 2 ^ 64)
    (14695981039346656037 % 2 ^ 64)

/-- Position of the first set bit of `n` (fuel-bounded); returns the fuel
bound when `n` has no set bit within it. -/
def firstSetBit : Nat → Nat → Nat
  | 0, _ => 0
  | fuel + 1, n => if n % 2 = 1 then 0 else firstSetBit fuel (n / 2) + 1

/-- Modelled from the spec: the hasher/indexer.  The low `P` hash bits select
the register; the rank is the position of the first set bit of the remaining
bits, clamped to the supported rank range `0..63`. -/
def jlHash (P : Nat) (e : String) : Nat × Nat :=
  let h := fnv64 (serializeElem e)
  (h % 2 ^ P, min 63 (firstSetBit 64 (h / 2 ^ P)))

/-- Modelled from the spec: Julia `HllSet(P)` — allocate `M = 2^P` registers
with all flags unset; fails with a configuration error when `P` is outside
the supported range `[4, 18]`. -/
def jlNew (P : Nat) : Except PyErr JlHll :=
  if 4 ≤ P ∧ P ≤ 18 then
    .ok ⟨P, List.replicate (2 ^ P) (List.replicate 64 false)⟩
  else .error .configError

/-- Modelled from the spec: Julia `add!` — hash the element and set the flag
at the resulting rank in the resulting register (idempotent, monotone). -/
def jlAdd (h : JlHll) (e : String) : JlHll :=
  let p := jlHash h.P e
  { h with regs := h.regs.set p.1 ((h.regs.getD p.1 []).set p.2 true) }

/-- Truncated rational series for the natural logarithm
(`ln x = 2 * Σ t^(2k+1)/(2k+1)`, `t = (x-1)/(x+1)`), the computable surrogate
for the transcendental `ln` in the estimator's range corrections; it is exact
at `x = 1` (`lnQ 1 = 0`). -/
def lnQ (x : ℚ) : ℚ :=
  if x ≤ 0 then 0
  else
    let t := (x - 1) / (x + 1)
    2 * ((List.range 8).map
      (fun k => t ^ (2 * k + 1) / ((2 * k + 1 : Nat) : ℚ))).sum

/-- Highest set flag index of a register, `none` when no flag is set. -/
def maxRank (reg : List Bool) : Option Nat :=
  (List.range reg.length).foldl
    (fun acc i => if reg.getD i false then some i else acc) none

/-- A register's term in the estimator's harmonic sum: `2^(-maxRank)`, with a
flagless register contributing `2^0 = 1`. -/
def registerContribution (reg : List Bool) : ℚ :=
  match maxRank reg with
  | none => 1
  | some r => 1 / 2 ^ r

/-- Modelled from the spec: the precision-dependent bias constant `α_M`. -/
def alphaOf (m : Nat) : ℚ :=
  if m = 16 then 673 / 1000
  else if m = 32 then 697 / 1000
  else if m = 64 then 709 / 1000
  else 7213 / 10000 / (1 + 1079 / 1000 / (m : ℚ))

/-- Modelled from the spec: Julia `count` — the harmonic-mean bias-corrected
cardinality estimator with small-range (linear counting, skipped when there
are no flagless registers) and large-range corrections; the spec's float `ln`
is realised by the rational surrogate `lnQ`.  Returns `0` for an all-unset
register array. -/
def jlCount (h : JlHll) : ℚ :=
  let m : ℚ := (h.regs.length : ℚ)
  let z : ℚ := (h.regs.map registerContribution).sum
  let raw := alphaOf h.regs.length * m ^ 2 / z
  let v := (h.regs.filter (fun reg => reg.all (fun b => !b))).length
  if raw ≤ 5 / 2 * m ∧ v ≠ 0 then m * lnQ (m / (v : ℚ))
  else if raw > 2 ^ 64 / 30 then -(2 ^ 64) * lnQ (1 - raw / 2 ^ 64)
  else raw

/-- Register-wise combination of two sketches' flag vectors. -/
def regZip (f : Bool → Bool → Bool) (a b : JlHll) : JlHll :=
  ⟨a.P, List.zipWith (fun ra rb => List.zipWith f ra rb) a.regs b.regs⟩

/-- Modelled from the spec: Julia `union` — register-wise OR; fails with a
configuration mismatch when the precisions differ. -/
def jlUnion (a b : JlHll) : Except PyErr JlHll :=
  if a.P = b.P then .ok (regZip (fun x y => x || y) a b)
  else .error .configMismatch

/-- Modelled from the spec: Julia `intersect` — register-wise AND; fails with
a configuration mismatch when the precisions differ. -/
def jlIntersect (a b : JlHll) : Except PyErr JlHll :=
  if a.P = b.P then .ok (regZip (fun x y => x && y) a b)
  else .error .configMismatch

/-- Modelled from the spec: Julia `diff` — the three-way difference
`(deleted, retained, new)` = (flags only in `a`, flags in both, flags only in
`b`); fails with a configuration mismatch when the precisions differ. -/
def jlDiff (a b : JlHll) : Except PyErr (JlHll × JlHll × JlHll) :=
  if a.P = b.P then
    .ok (regZip (fun x y => x && !y) a b,
         regZip (fun x y => x && y) a b,
         regZip (fun x y => !x && y) a b)
  else .error .configMismatch

/-- Modelled from the spec: Julia `set_comp` — register-wise AND-NOT of `a`'s
flags by `b`'s flags (the `deleted` output of `diff`); fails with a
configuration mismatch when the precisions differ. -/
def jlSetComp (a b : JlHll) : Except PyErr JlHll :=
  if a.P = b.P then .ok (regZip (fun x y => x && !y) a b)
  else .error .configMismatch

/-- Modelled from the spec: Julia `isequal` — exact bit-for-bit register
equality; fails with a configuration mismatch when the precisions differ. -/
def jlIsequal (a b : JlHll) : Except PyErr Bool :=
  if a.P = b.P then .ok (decide (a.regs = b.regs))
  else .error .configMismatch

/-- The BSS metrics pair (`dataclass BSSMetrics`). -/
structure BSSMetrics where
  tau : ℚ
  rho : ℚ
  deriving DecidableEq

/-- The Python `HllSet` wrapper object: precision `P`, passenger metrics
`tau`/`rho`, `seed`, and the underlying Julia sketch `hll`. -/
structure HllSet where
  P : Nat
  tau : ℚ
  rho : ℚ
  seed : Nat
  hll : JlHll
  deriving DecidableEq

/-- `HllSet.__init__(P, tau, rho, seed)`: store the configuration fields and
create a fresh Julia sketch via `Main.HllSet(P)`; when that construction
fails no wrapper object is produced. -/
def HllSet.init (P : Nat := 10) (tau : ℚ := 7 / 10) (rho : ℚ := 21 / 100)
    (seed : Nat := 42) : Except PyErr HllSet :=
  match jlNew P with
  | .error e => .error e
  | .ok jh => .ok ⟨P, tau, rho, seed, jh⟩

/-- `HllSet.from_julia(julia_hll, P, tau, rho, seed)`: construct a wrapper via
`cls(P, tau, rho, seed)` and replace its `hll` field by the given Julia
object. -/
def HllSet.from_julia (j : JlHll) (P : Nat := 10) (tau : ℚ := 7 / 10)
    (rho : ℚ := 21 / 100) (seed : Nat := 42) : Except PyErr HllSet :=
  match HllSet.init P tau rho seed with
  | .error e => .error e
  | .ok h => .ok { h with hll := j }

/-- `HllSet.add(element)`: delegate to Julia `add!` on `self.hll` (mutation of
`self.hll` is rendered as returning the updated wrapper). -/
def HllSet.add (self : HllSet) (e : String) : HllSet :=
  { self with hll := jlAdd self.hll e }

/-- `HllSet.add_batch(elements)`: loop over the elements, applying Julia
`add!` to `self.hll` for each in order. -/
def HllSet.add_batch (self : HllSet) (es : List String) : HllSet :=
  es.foldl (fun s e => { s with hll := jlAdd s.hll e }) self

/-- `HllSet.count()`: delegate to Julia `count`. -/
def HllSet.count (self : HllSet) : ℚ :=
  jlCount self.hll

/-- `HllSet._calculate_bss_metrics(other)`: `count_b = other.count()`; if it
is zero return `(0.0, 0.0)`; otherwise `tau` is the estimate of
`intersect(self.hll, other.hll)` over `count_b` and `rho` is the estimate of
the `deleted` output of `diff(self.hll, other.hll)` over `count_b`. -/
def HllSet.calculate_bss_metrics (self other : HllSet) :
    Except PyErr BSSMetrics :=
  let count_b := other.count
  if count_b = 0 then .ok ⟨0, 0⟩
  else
    match jlIntersect self.hll other.hll with
    | .error e => .error e
    | .ok ihll =>
      let intersection_count := jlCount ihll
      match jlDiff self.hll other.hll with
      | .error e => .error e
      | .ok (deleted_hll, _retained_hll, _new_hll) =>
        let deleted_count := jlCount deleted_hll
        .ok ⟨intersection_count / count_b, deleted_count / count_b⟩

/-- `HllSet.calculate_bss_to(other)`: alias for `_calculate_bss_metrics`. -/
def HllSet.calculate_bss_to (self other : HllSet) : Except PyErr BSSMetrics :=
  self.calculate_bss_metrics other

/-- `HllSet.union(other)`: Julia `union` on the two underlying sketches,
wrapped via `from_julia(result, self.P)`, then the passenger metrics are set
to `tau = min(self.tau, other.tau)`, `rho = max(self.rho, other.rho)`. -/
def HllSet.union (self other : HllSet) : Except PyErr HllSet :=
  match jlUnion self.hll other.hll with
  | .error e => .error e
  | .ok result =>
    match HllSet.from_julia result self.P with
    | .error e => .error e
    | .ok union_set =>
      .ok { union_set with tau := min self.tau other.tau,
                           rho := max self.rho other.rho }

/-- `HllSet.intersection(other)`: Julia `intersect` on the two underlying
sketches, wrapped via `from_julia(result, self.P)`, then the passenger
metrics are set to the min/max combination. -/
def HllSet.intersection (self other : HllSet) : Except PyErr HllSet :=
  match jlIntersect self.hll other.hll with
  | .error e => .error e
  | .ok result =>
    match HllSet.from_julia result self.P with
    | .error e => .error e
    | .ok intersect_set =>
      .ok { intersect_set with tau := min self.tau other.tau,
                               rho := max self.rho other.rho }

/-- `HllSet.difference(other)`: Julia `diff`, each of the three outputs
wrapped via `from_julia(·, self.P)`, then all three receive the min/max
combined passenger metrics. -/
def HllSet.difference (self other : HllSet) :
    Except PyErr (HllSet × HllSet × HllSet) :=
  match jlDiff self.hll other.hll with
  | .error e => .error e
  | .ok (deleted, retained, newh) =>
    match HllSet.from_julia deleted self.P, HllSet.from_julia retained self.P,
          HllSet.from_julia newh self.P with
    | .ok deleted_set, .ok retained_set, .ok new_set =>
      let combined_tau := min self.tau other.tau
      let combined_rho := max self.rho other.rho
      .ok ({ deleted_set with tau := combined_tau, rho := combined_rho },
           { retained_set with tau := combined_tau, rho := combined_rho },
           { new_set with tau := combined_tau, rho := combined_rho })
    | .error e, _, _ => .error e
    | _, .error e, _ => .error e
    | _, _, .error e => .error e

/-- `HllSet.complement(other)`: Julia `set_comp` on the two underlying
sketches, wrapped via `from_julia(result, self.P)`; the result's passenger
metrics are then set to `_calculate_bss_metrics(other)`, computed from `self`
and `other`, not from the complement result. -/
def HllSet.complement (self other : HllSet) : Except PyErr HllSet :=
  match jlSetComp self.hll other.hll with
  | .error e => .error e
  | .ok result =>
    match HllSet.from_julia result self.P with
    | .error e => .error e
    | .ok comp_set =>
      match self.calculate_bss_metrics other with
      | .error e => .error e
      | .ok metrics =>
        .ok { comp_set with tau := metrics.tau, rho := metrics.rho }

/-- An arbitrary Python value, as far as `__eq__` can observe it: either an
`HllSet` instance or something else. -/
inductive PyAny where
  | hllset (h : HllSet)
  | int (n : Int)
  | str (s : String)
  | pyNone
  deriving DecidableEq

/-- Whether a Python value is an `HllSet` instance (`isinstance` check). -/
def PyAny.isHllSet : PyAny → Bool
  | .hllset _ => true
  | _ => false

/-- `HllSet.__eq__(other)`: `False` when `other` is not an `HllSet` instance,
otherwise Julia `isequal` on the two underlying sketches. -/
def HllSet.py_eq (self : HllSet) (other : PyAny) : Except PyErr Bool :=
  match other with
  | .hllset o => jlIsequal self.hll o.hll
  | _ => .ok false

/-- A value stored in the Redis hash `from_dict` reads: either a byte string
(carried here in already-decodable form) or a plain string. -/
inductive RVal where
  | bytes (s : String)
  | str (s : String)
  deriving DecidableEq

/-- `key.decode() if isinstance(key, bytes) else key`. -/
def RVal.decode : RVal → String
  | .bytes s => s
  | .str s => s

/-- `HllSet.from_dict(redis_data, P, tau, rho, seed)`: raise `ValueError` on
an empty dictionary; otherwise build a fresh wrapper via `cls(P, tau, rho,
seed)` and, for each entry in order, `add` the decoded key then the decoded
value. -/
def HllSet.from_dict (redis_data : List (RVal × RVal)) (P : Nat := 10)
    (tau : ℚ := 7 / 10) (rho : ℚ := 21 / 100) (seed : Nat := 42) :
    Except PyErr HllSet :=
  if redis_data.isEmpty then .error .valueError
  else
    match HllSet.init P tau rho seed with
    | .error e => .error e
    | .ok hll =>
      .ok (redis_data.foldl
        (fun acc kv => (acc.add kv.1.decode).add kv.2.decode) hll)

/-!
Store-level rendering of the same wrapper methods.  The Python heap of
wrapper objects is a list of `HllSet` records addressed by position;
`self`/`other` are addresses, every Python object construction appends a new
object, and each operation returns the post-call store together with its
Python return value (addresses of freshly allocated results).  This makes the
allocation/mutation behaviour — operators allocate new objects and never
touch existing ones — observable in the embedding.
-/

/-- Store-level `HllSet(P, tau, rho, seed)` construction: on success the new
object is appended, on failure the store is returned unchanged (the
partially-initialized Python object is never reachable). -/
def createAt (st : List HllSet) (P : Nat) (tau rho : ℚ) (seed : Nat) :
    List HllSet × Except PyErr Nat :=
  match HllSet.init P tau rho seed with
  | .error e => (st, .error e)
  | .ok h => (st ++ [h], .ok st.length)

/-- Store-level `union`: the combined result is a newly appended object. -/
def unionAt (st : List HllSet) (a b : Nat) : List HllSet × Except PyErr Nat :=
  match st[a]?, st[b]? with
  | some A, some B =>
    match jlUnion A.hll B.hll with
    | .error e => (st, .error e)
    | .ok result =>
      match HllSet.from_julia result A.P with
      | .error e => (st, .error e)
      | .ok union_set =>
        (st ++ [{ union_set with tau := min A.tau B.tau,
                                 rho := max A.rho B.rho }],
         .ok st.length)
  | _, _ => (st, .error .invalidAddress)

/-- Store-level `intersection`: the result is a newly appended object. -/
def interAt (st : List HllSet) (a b : Nat) : List HllSet × Except PyErr Nat :=
  match st[a]?, st[b]? with
  | some A, some B =>
    match jlIntersect A.hll B.hll with
    | .error e => (st, .error e)
    | .ok result =>
      match HllSet.from_julia result A.P with
      | .error e => (st, .error e)
      | .ok intersect_set =>
        (st ++ [{ intersect_set with tau := min A.tau B.tau,
                                     rho := max A.rho B.rho }],
         .ok st.length)
  | _, _ => (st, .error .invalidAddress)

/-- Store-level `difference`: the three results are newly appended objects
(in order deleted, retained, new). -/
def diffAt (st : List HllSet) (a b : Nat) :
    List HllSet × Except PyErr (Nat × Nat × Nat) :=
  match st[a]?, st[b]? with
  | some A, some B =>
    match jlDiff A.hll B.hll with
    | .error e => (st, .error e)
    | .ok (deleted, retained, newh) =>
      match HllSet.from_julia deleted A.P, HllSet.from_julia retained A.P,
            HllSet.from_julia newh A.P with
      | .ok deleted_set, .ok retained_set, .ok new_set =>
        let combined_tau := min A.tau B.tau
        let combined_rho := max A.rho B.rho
        (st ++ [{ deleted_set with tau := combined_tau, rho := combined_rho },
                { retained_set with tau := combined_tau, rho := combined_rho },
                { new_set with tau := combined_tau, rho := combined_rho }],
         .ok (st.length, st.length + 1, st.length + 2))
      | .error e, _, _ => (st, .error e)
      | _, .error e, _ => (st, .error e)
      | _, _, .error e => (st, .error e)
  | _, _ => (st, .error .invalidAddress)

/-- Store-level `complement`: the result is a newly appended object carrying
the BSS metrics of the operands. -/
def compAt (st : List HllSet) (a b : Nat) : List HllSet × Except PyErr Nat :=
  match st[a]?, st[b]? with
  | some A, some B =>
    match jlSetComp A.hll B.hll with
    | .error e => (st, .error e)
    | .ok result =>
      match HllSet.from_julia result A.P with
      | .error e => (st, .error e)
      | .ok comp_set =>
        match A.calculate_bss_metrics B with
        | .error e => (st, .error e)
        | .ok metrics =>
          (st ++ [{ comp_set with tau := metrics.tau, rho := metrics.rho }],
           .ok st.length)
  | _, _ => (st, .error .invalidAddress)

/-- Store-level `__eq__` between two stored sketches: never allocates and
never mutates. -/
def eqAt (st : List HllSet) (a b : Nat) : List HllSet × Except PyErr Bool :=
  match st[a]?, st[b]? with
  | some A, some B => (st, jlIsequal A.hll B.hll)
  | _, _ => (st, .error .invalidAddress)

/-- The value `union(A, B)` produces: operand `A`'s precision, min/max
combined passenger metrics, the default seed from `from_julia`, and the
register-wise OR of the underlying sketches. -/
def unionVal (A B : HllSet) : HllSet :=
  ⟨A.P, min A.tau B.tau, max A.rho B.rho, 42,
   regZip (fun x y => x || y) A.hll B.hll⟩

/-- The value `intersection(A, B)` produces. -/
def interVal (A B : HllSet) : HllSet :=
  ⟨A.P, min A.tau B.tau, max A.rho B.rho, 42,
   regZip (fun x y => x && y) A.hll B.hll⟩

/-- The three values `difference(A, B)` produces (deleted, retained, new). -/
def diffVals (A B : HllSet) : HllSet × HllSet × HllSet :=
  (⟨A.P, min A.tau B.tau, max A.rho B.rho, 42,
    regZip (fun x y => x && !y) A.hll B.hll⟩,
   ⟨A.P, min A.tau B.tau, max A.rho B.rho, 42,
    regZip (fun x y => x && y) A.hll B.hll⟩,
   ⟨A.P, min A.tau B.tau, max A.rho B.rho, 42,
    regZip (fun x y => !x && y) A.hll B.hll⟩)

/-- The BSS metrics value `_calculate_bss_metrics(A, B)` produces when the
precisions match: `(0, 0)` for a zero estimate of `B`, otherwise the two
quotients of estimates. -/
def bssVal (A B : HllSet) : BSSMetrics :=
  if jlCount B.hll = 0 then ⟨0, 0⟩
  else ⟨jlCount (regZip (fun x y => x && y) A.hll B.hll) / jlCount B.hll,
        jlCount (regZip (fun x y => x && !y) A.hll B.hll) / jlCount B.hll⟩

/-- The value `complement(A, B)` produces: the AND-NOT sketch carrying the
BSS metrics of `(A, B)`. -/
def compVal (A B : HllSet) : HllSet :=
  ⟨A.P, (bssVal A B).tau, (bssVal A B).rho, 42,
   regZip (fun x y => x && !y) A.hll B.hll⟩

/-!
Concrete sketches used as witness inputs and counterexample inputs.  They are
direct register-array values (the theorems quantify over arbitrary `HllSet`
values, so any concrete value is a valid input).
-/

/-- A precision-4 sketch with a single rank-0 flag set in register 0. -/
def wA : HllSet := ⟨4, 7 / 10, 21 / 100, 42, ⟨4, [[true]]⟩⟩

/-- A precision-4 sketch with a single rank-1 flag set in register 0
(nonzero estimate). -/
def wB : HllSet := ⟨4, 7 / 10, 21 / 100, 42, ⟨4, [[false, true]]⟩⟩

/-- A precision-4 sketch with no flags set (zero estimate: both registers
are flagless, so linear counting yields `2 * ln(2/2) = 0`). -/
def wZ : HllSet := ⟨4, 7 / 10, 21 / 100, 42, ⟨4, [[], []]⟩⟩

/-- A precision-10 sketch, used for precision-mismatch inputs. -/
def wM : HllSet := ⟨10, 7 / 10, 21 / 100, 42, ⟨10, [[true]]⟩⟩

/-- The sketch `complement(wA, wZ)` returns: its passenger metrics are the
BSS metrics of `(wA, wZ)`, namely `(0, 0)` since `wZ` estimates to zero. -/
def cexC : HllSet := ⟨4, 0, 0, 42, ⟨4, [[]]⟩⟩

/-- `add_batch` over the key/value elements of an association list, flattened
in entry order, equals the fold that adds each entry's decoded key then its
decoded value. -/
theorem add_batch_bind_eq_fold (h : HllSet) (data : List (RVal × RVal)) :
    h.add_batch (data.flatMap fun kv => [kv.1.decode, kv.2.decode]) =
      data.foldl (fun acc kv => (acc.add kv.1.decode).add kv.2.decode) h := by
  induction data generalizing h with
  | nil => rfl
  | cons kv rest ih => exact ih ((h.add kv.1.decode).add kv.2.decode)

/-- The logarithm surrogate is exact at 1. -/
theorem lnQ_one : lnQ 1 = 0 := by
  norm_num [lnQ]

/-- The flagless concrete sketch `wZ` estimates to zero: both of its
registers are flagless, so linear counting applies and yields
`2 * ln(2/2) = 0`. -/
theorem wZ_count_eq : wZ.count = 0 := by
  have h1 : maxRank [] = none := rfl
  have h2 : wZ.hll.regs = [[], []] := rfl
  norm_num [HllSet.count, jlCount, h2, registerContribution, h1, alphaOf,
    List.filter, lnQ_one]

/-- The concrete sketch `wB` has a nonzero estimate: its single register has
max rank 1 and no register is flagless, so the raw harmonic estimate
(≈ 0.694) is returned unchanged. -/
theorem wB_count_ne : wB.count ≠ 0 := by
  have h1 : maxRank [false, true] = some 1 := rfl
  have h2 : wB.hll.regs = [[false, true]] := rfl
  norm_num [HllSet.count, jlCount, h2, registerContribution, h1, alphaOf,
    List.filter]

/-- C1: with `estimate(B) ≠ 0` (and matching underlying precisions, the
precondition of every binary operator), `_calculate_bss_metrics` — and its
public alias `calculate_bss_to` — returns exactly
`tau = estimate(intersection(A, B)) / estimate(B)` and
`rho = estimate(difference(A, B).deleted) / estimate(B)`, as unclamped
quotients. -/
theorem bss_metrics_formula (A B : HllSet) (hP : A.hll.P = B.hll.P)
    (hB : B.count ≠ 0) :
    A.calculate_bss_metrics B =
      .ok ⟨jlCount (regZip (fun x y => x && y) A.hll B.hll) / B.count,
           jlCount (regZip (fun x y => x && !y) A.hll B.hll) / B.count⟩ ∧
    A.calculate_bss_to B =
      .ok ⟨jlCount (regZip (fun x y => x && y) A.hll B.hll) / B.count,
           jlCount (regZip (fun x y => x && !y) A.hll B.hll) / B.count⟩ := by
  have hB' : ¬ jlCount B.hll = 0 := hB
  constructor <;>
    simp [HllSet.calculate_bss_to, HllSet.calculate_bss_metrics,
      HllSet.count, jlIntersect, jlDiff, hP, hB']

/-- Witness for C1 at the concrete sketches `wA`, `wB`. -/
theorem bss_metrics_formula_witness :
    wA.hll.P = wB.hll.P ∧ wB.count ≠ 0 ∧
      (wA.calculate_bss_metrics wB =
        .ok ⟨jlCount (regZip (fun x y => x && y) wA.hll wB.hll) / wB.count,
             jlCount (regZip (fun x y => x && !y) wA.hll wB.hll) / wB.count⟩ ∧
      wA.calculate_bss_to wB =
        .ok ⟨jlCount (regZip (fun x y => x && y) wA.hll wB.hll) / wB.count,
             jlCount (regZip (fun x y => x && !y) wA.hll wB.hll) / wB.count⟩) :=
  ⟨rfl, wB_count_ne, bss_metrics_formula wA wB rfl wB_count_ne⟩

/-- C2: when `estimate(B) = 0` the BSS metrics calculation returns exactly
`(0.0, 0.0)` without error.  The theorem needs no precision-match hypothesis:
even for sketches of differing precision (where `intersect`/`diff` would fail
with a configuration mismatch) the result is `ok (0, 0)`, showing that no
intersection or difference is computed in this case. -/
theorem bss_metrics_zero_denominator (A B : HllSet) (hB : B.count = 0) :
    A.calculate_bss_metrics B = .ok ⟨0, 0⟩ := by
  simp [HllSet.calculate_bss_metrics, HllSet.count] at hB ⊢
  simp [hB]

/-- Witness for C2 at the flagless sketch `wZ` and the precision-mismatched
sketch `wM`. -/
theorem bss_metrics_zero_denominator_witness :
    wZ.count = 0 ∧ wM.calculate_bss_metrics wZ = .ok ⟨0, 0⟩ :=
  ⟨wZ_count_eq, bss_metrics_zero_denominator wM wZ wZ_count_eq⟩

/-- C3 counterexample: `complement(wA, wZ)` succeeds and returns a sketch
whose passenger `tau` is `0` (the BSS metric of `(wA, wZ)`), not
`min(wA.tau, wZ.tau) = 7/10`, so complement does not follow the min/max
combination rule claimed for every binary operator. -/
theorem complement_metadata_counterexample :
    wA.complement wZ = .ok cexC ∧ cexC.tau ≠ min wA.tau wZ.tau := by
  have hz : jlCount wZ.hll = 0 := wZ_count_eq
  have hz' : jlCount ⟨4, [[], []]⟩ = 0 := wZ_count_eq
  constructor
  · simp [HllSet.complement, jlSetComp, HllSet.from_julia, HllSet.init,
      jlNew, HllSet.calculate_bss_metrics, HllSet.count, regZip, hz, hz',
      wA, wZ, cexC]
  · norm_num [cexC, wA, wZ]

/-- C3 (amended): the results of `union`, `intersection`, and each of the
three outputs of `difference` carry passenger metadata
`tau = min(A.tau, B.tau)` and `rho = max(A.rho, B.rho)`; `complement` is
excluded (it carries the BSS metrics of the operands instead). -/
theorem minmax_metadata_amended (A B : HllSet)
    (hv : 4 ≤ A.P ∧ A.P ≤ 18) (hP : A.hll.P = B.hll.P) :
    (A.union B).map HllSet.tau = .ok (min A.tau B.tau) ∧
    (A.union B).map HllSet.rho = .ok (max A.rho B.rho) ∧
    (A.intersection B).map HllSet.tau = .ok (min A.tau B.tau) ∧
    (A.intersection B).map HllSet.rho = .ok (max A.rho B.rho) ∧
    (A.difference B).map (fun t => (t.1.tau, t.2.1.tau, t.2.2.tau)) =
      .ok (min A.tau B.tau, min A.tau B.tau, min A.tau B.tau) ∧
    (A.difference B).map (fun t => (t.1.rho, t.2.1.rho, t.2.2.rho)) =
      .ok (max A.rho B.rho, max A.rho B.rho, max A.rho B.rho) := by
  refine ⟨?_, ?_, ?_, ?_, ?_, ?_⟩ <;>
    simp [HllSet.union, HllSet.intersection, HllSet.difference,
      jlUnion, jlIntersect, jlDiff, HllSet.from_julia, HllSet.init, jlNew,
      Except.map, hP, hv]

/-- Witness for the amended C3 at the concrete sketches `wA`, `wB`. -/
theorem minmax_metadata_amended_witness :
    (4 ≤ wA.P ∧ wA.P ≤ 18) ∧ wA.hll.P = wB.hll.P ∧
      ((wA.union wB).map HllSet.tau = .ok (min wA.tau wB.tau) ∧
      (wA.union wB).map HllSet.rho = .ok (max wA.rho wB.rho) ∧
      (wA.intersection wB).map HllSet.tau = .ok (min wA.tau wB.tau) ∧
      (wA.intersection wB).map HllSet.rho = .ok (max wA.rho wB.rho) ∧
      (wA.difference wB).map (fun t => (t.1.tau, t.2.1.tau, t.2.2.tau)) =
        .ok (min wA.tau wB.tau, min wA.tau wB.tau, min wA.tau wB.tau) ∧
      (wA.difference wB).map (fun t => (t.1.rho, t.2.1.rho, t.2.2.rho)) =
        .ok (max wA.rho wB.rho, max wA.rho wB.rho, max wA.rho wB.rho)) :=
  ⟨by decide, rfl, minmax_metadata_amended wA wB (by decide) rfl⟩

/-- C4: `complement(A, B)` attaches exactly the BSS metrics that
`_calculate_bss_metrics(A, B)` computes from the operands (zero-denominator
case included), not metrics derived from the complement result. -/
theorem complement_carries_bss_metrics (A B : HllSet)
    (hv : 4 ≤ A.P ∧ A.P ≤ 18) (hP : A.hll.P = B.hll.P) :
    (A.complement B).map HllSet.tau =
      (A.calculate_bss_metrics B).map BSSMetrics.tau ∧
    (A.complement B).map HllSet.rho =
      (A.calculate_bss_metrics B).map BSSMetrics.rho := by
  by_cases h0 : jlCount B.hll = 0 <;>
    constructor <;>
      simp [HllSet.complement, HllSet.calculate_bss_metrics, HllSet.count,
        jlSetComp, jlIntersect, jlDiff, HllSet.from_julia, HllSet.init,
        jlNew, Except.map, hP, hv, h0]

/-- Witness for C4 at the concrete sketches `wA`, `wB`. -/
theorem complement_carries_bss_metrics_witness :
    (4 ≤ wA.P ∧ wA.P ≤ 18) ∧ wA.hll.P = wB.hll.P ∧
      ((wA.complement wB).map HllSet.tau =
        (wA.calculate_bss_metrics wB).map BSSMetrics.tau ∧
      (wA.complement wB).map HllSet.rho =
        (wA.calculate_bss_metrics wB).map BSSMetrics.rho) :=
  ⟨by decide, rfl, complement_carries_bss_metrics wA wB (by decide) rfl⟩

/-- C5: every binary operator — `union`, `intersection`, `difference`,
`complement`, and `__eq__` against another sketch — fails with a
configuration-mismatch error when the operands' precisions differ, and at
store level the failed call leaves the object store (hence both operands)
completely unchanged. -/
theorem config_mismatch_failures (A B : HllSet) (st : List HllSet)
    (a b : Nat) (ha : st[a]? = some A) (hb : st[b]? = some B)
    (h : A.hll.P ≠ B.hll.P) :
    A.union B = .error .configMismatch ∧
    A.intersection B = .error .configMismatch ∧
    A.difference B = .error .configMismatch ∧
    A.complement B = .error .configMismatch ∧
    A.py_eq (.hllset B) = .error .configMismatch ∧
    (unionAt st a b).1 = st ∧ (interAt st a b).1 = st ∧
    (diffAt st a b).1 = st ∧ (compAt st a b).1 = st ∧ (eqAt st a b).1 = st := by
  refine ⟨?_, ?_, ?_, ?_, ?_, ?_, ?_, ?_, ?_, ?_⟩ <;>
    simp [HllSet.union, HllSet.intersection, HllSet.difference,
      HllSet.complement, HllSet.py_eq, unionAt, interAt, diffAt, compAt,
      eqAt, jlUnion, jlIntersect, jlDiff, jlSetComp, jlIsequal, ha, hb, h]

/-- Witness for C5 at the precision-mismatched pair `wM` (P = 10) and `wA`
(P = 4), stored at addresses 0 and 1. -/
theorem config_mismatch_failures_witness :
    [wM, wA][0]? = some wM ∧ [wM, wA][1]? = some wA ∧
    wM.hll.P ≠ wA.hll.P ∧
      (wM.union wA = .error .configMismatch ∧
      wM.intersection wA = .error .configMismatch ∧
      wM.difference wA = .error .configMismatch ∧
      wM.complement wA = .error .configMismatch ∧
      wM.py_eq (.hllset wA) = .error .configMismatch ∧
      (unionAt [wM, wA] 0 1).1 = [wM, wA] ∧
      (interAt [wM, wA] 0 1).1 = [wM, wA] ∧
      (diffAt [wM, wA] 0 1).1 = [wM, wA] ∧
      (compAt [wM, wA] 0 1).1 = [wM, wA] ∧
      (eqAt [wM, wA] 0 1).1 = [wM, wA]) :=
  ⟨rfl, rfl, by decide,
    config_mismatch_failures wM wA [wM, wA] 0 1 rfl rfl (by decide)⟩

/-- C6: constructing a sketch with a precision outside the supported range
`[4, 18]` fails with a configuration error, and at store level no object —
partial or otherwise — is produced by the failed construction. -/
theorem invalid_precision_config_error (P : Nat) (tau rho : ℚ) (seed : Nat)
    (st : List HllSet) (h : ¬(4 ≤ P ∧ P ≤ 18)) :
    HllSet.init P tau rho seed = .error .configError ∧
    createAt st P tau rho seed = (st, .error .configError) := by
  constructor <;> simp [createAt, HllSet.init, jlNew, h]

/-- Witness for C6 at the unsupported precision `P = 3`. -/
theorem invalid_precision_config_error_witness :
    ¬(4 ≤ 3 ∧ 3 ≤ 18) ∧
      (HllSet.init 3 (7 / 10) (21 / 100) 42 = .error .configError ∧
      createAt [] 3 (7 / 10) (21 / 100) 42 = ([], .error .configError)) :=
  ⟨by decide, invalid_precision_config_error 3 (7 / 10) (21 / 100) 42 []
    (by decide)⟩

/-- C7: `add_batch(S, [e1, ..., en])` leaves the sketch in exactly the state
reached by folding `add` over the elements sequentially in order. -/
theorem add_batch_is_sequential_add (S : HllSet) (es : List String) :
    S.add_batch es = es.foldl HllSet.add S := rfl

/-- C8: on a store of wrapper objects, with matching precisions and a valid
operand precision, each algebra operator extends the store by freshly
allocated result object(s) — the post-call store is exactly the pre-call
store with the new objects appended, so every pre-existing object, in
particular both operands with all their fields and register contents, is
untouched, and the returned addresses (`st.length`, ...) name objects that
did not exist before the call. -/
theorem operators_allocate_fresh_results (st : List HllSet) (a b : Nat)
    (A B : HllSet) (ha : st[a]? = some A) (hb : st[b]? = some B)
    (hv : 4 ≤ A.P ∧ A.P ≤ 18) (hP : A.hll.P = B.hll.P) :
    unionAt st a b = (st ++ [unionVal A B], .ok st.length) ∧
    (unionAt st a b).1[a]? = some A ∧
    (unionAt st a b).1[b]? = some B ∧
    st[st.length]? = none ∧
    interAt st a b = (st ++ [interVal A B], .ok st.length) ∧
    diffAt st a b =
      (st ++ [(diffVals A B).1, (diffVals A B).2.1, (diffVals A B).2.2],
       .ok (st.length, st.length + 1, st.length + 2)) ∧
    compAt st a b = (st ++ [compVal A B], .ok st.length) := by
  have hu : unionAt st a b = (st ++ [unionVal A B], .ok st.length) := by
    simp [unionAt, unionVal, jlUnion, HllSet.from_julia, HllSet.init, jlNew,
      ha, hb, hv, hP]
  have hlta : a < st.length := (List.getElem?_eq_some.mp ha).1
  have hltb : b < st.length := (List.getElem?_eq_some.mp hb).1
  refine ⟨hu, ?_, ?_, ?_, ?_, ?_, ?_⟩
  · rw [hu]; rw [List.getElem?_append_left hlta]; exact ha
  · rw [hu]; rw [List.getElem?_append_left hltb]; exact hb
  · simp
  · simp [interAt, interVal, jlIntersect, HllSet.from_julia, HllSet.init,
      jlNew, ha, hb, hv, hP]
  · simp [diffAt, diffVals, jlDiff, HllSet.from_julia, HllSet.init, jlNew,
      ha, hb, hv, hP]
  · by_cases h0 : jlCount B.hll = 0 <;>
      simp [compAt, compVal, bssVal, jlSetComp, HllSet.calculate_bss_metrics,
        HllSet.count, jlIntersect, jlDiff, HllSet.from_julia, HllSet.init,
        jlNew, ha, hb, hv, hP, h0]

/-- Witness for C8 at the store `[wA, wB]` with operands at addresses 0
and 1. -/
theorem operators_allocate_fresh_results_witness :
    [wA, wB][0]? = some wA ∧ [wA, wB][1]? = some wB ∧
    (4 ≤ wA.P ∧ wA.P ≤ 18) ∧ wA.hll.P = wB.hll.P ∧
      (unionAt [wA, wB] 0 1 = ([wA, wB] ++ [unionVal wA wB], .ok 2) ∧
      (unionAt [wA, wB] 0 1).1[0]? = some wA ∧
      (unionAt [wA, wB] 0 1).1[1]? = some wB ∧
      [wA, wB][2]? = none ∧
      interAt [wA, wB] 0 1 = ([wA, wB] ++ [interVal wA wB], .ok 2) ∧
      diffAt [wA, wB] 0 1 =
        ([wA, wB] ++ [(diffVals wA wB).1, (diffVals wA wB).2.1,
          (diffVals wA wB).2.2], .ok (2, 3, 4)) ∧
      compAt [wA, wB] 0 1 = ([wA, wB] ++ [compVal wA wB], .ok 2)) :=
  ⟨rfl, rfl, by decide, rfl,
    operators_allocate_fresh_results [wA, wB] 0 1 wA wB rfl rfl (by decide)
      rfl⟩

/-- C9: comparing a sketch with `==` against any value that is not an
`HllSet` instance returns `False` (no error, no register comparison). -/
theorem eq_non_hllset_is_false (A : HllSet) (x : PyAny)
    (h : x.isHllSet = false) : A.py_eq x = .ok false := by
  cases x <;> simp_all [PyAny.isHllSet, HllSet.py_eq]

/-- Witness for C9 at a concrete non-`HllSet` value. -/
theorem eq_non_hllset_is_false_witness :
    PyAny.isHllSet (.int 5) = false ∧ wA.py_eq (.int 5) = .ok false :=
  ⟨by decide, eq_non_hllset_is_false wA (.int 5) (by decide)⟩

/-- C10: `from_dict` raises `ValueError` on an empty dictionary, and on a
non-empty dictionary builds a fresh sketch and performs exactly two
insertions per entry — the decoded key then the decoded value, in entry
order (equivalently, a batch insert of the flattened key/value list). -/
theorem from_dict_two_inserts_per_entry (data : List (RVal × RVal)) (P : Nat)
    (tau rho : ℚ) (seed : Nat) :
    HllSet.from_dict data P tau rho seed =
      if data.isEmpty then .error .valueError
      else (HllSet.init P tau rho seed).map
        (fun h => h.add_batch (data.flatMap fun kv =>
          [kv.1.decode, kv.2.decode])) := by
  by_cases hd : data.isEmpty <;>
    simp [HllSet.from_dict, hd]
  cases h : HllSet.init P tau rho seed with
  | error e => simp [Except.map]
  | ok hll => simp [Except.map, add_batch_bind_eq_fold]
